import Mathlib

/-!
Verification development for the AI Move Resolution Engine of the
Windsurf Chess repository (an AI-vs-AI chess web app).

The development shallowly embeds the JavaScript source:

* the Grok module of the repository (function `extractValidChessMove`,
  function `streamGrokResponse`): move extraction from free-form model
  output, and streaming accumulation;
* the provider adapter table `AI_MODELS` (`o-models.js`): the openai,
  xai and gemini `requestFormat` builders;
* the game orchestrator (`game.js`, class `Game`): `makeNextMove`
  request-config construction and `handleInvalidMove` retry escalation;
* the settings store (`settings.js`, class `Settings`): the shape of the
  persistent per-player and general settings objects.

JavaScript strings are embedded as `String`/`List Char`, JavaScript
numbers as `ℚ` (temperatures) and `ℤ` (token counts); absent object
properties (`undefined`) are embedded as `Option.none`, and the
JavaScript truthiness tests the source performs on them are made
explicit.  The regular expressions of the extractor are embedded by a
small backtracking matcher over an explicit pattern syntax, mirroring
the JavaScript regex dialect for the constructs the source uses
(character classes, optionals, alternation, literals, `\s+`, `\b`,
`^`, `$`, one capturing group, `g`-flag global scanning).
-/

namespace ChessAI

/-! ## Small string utilities (JavaScript string semantics) -/

/-- The single-quote character (U+0027), used inside several prompt
strings of the source. -/
def sq : Char := Char.ofNat 39

/-- A one-character string holding `sq`. -/
def sqs : String := String.singleton sq

/-- JavaScript `String.prototype.trim`: drop leading and trailing
whitespace. -/
def jsTrim (s : List Char) : List Char :=
  ((s.dropWhile Char.isWhitespace).reverse.dropWhile Char.isWhitespace).reverse

/-- Lower-case a character sequence (the source uses `toLowerCase`; all
strings compared by the source are ASCII or caseless CJK, where
`Char.toLower` agrees with JavaScript). -/
def lowerL (s : List Char) : List Char := s.map Char.toLower

/-- Whether `needle` occurs as a prefix of `hay`. -/
def startsWithL (hay needle : List Char) : Bool :=
  match needle, hay with
  | [], _ => true
  | _ :: _, [] => false
  | d :: ds, c :: cs => c == d && startsWithL cs ds

/-- Whether `needle` occurs as a contiguous substring of `hay`
(JavaScript `RegExp.test` with a literal pattern). -/
def occursIn (needle : List Char) : List Char → Bool
  | [] => needle.isEmpty
  | c :: cs => startsWithL (c :: cs) needle || occursIn needle cs

/-- Case-insensitive substring test: a literal regular expression with
the `i` flag, as in the error-phrase guard of the source. -/
def occursCI (needle hay : List Char) : Bool :=
  occursIn (lowerL needle) (lowerL hay)

theorem startsWithL_append (l m : List Char) : startsWithL (l ++ m) l = true := by
  induction l with
  | nil => cases m <;> rfl
  | cons c cs ih => simp [startsWithL, ih]

theorem occursIn_nil_left (l : List Char) : occursIn [] l = true := by
  cases l with
  | nil => rfl
  | cons c cs => simp [occursIn, startsWithL]

theorem occursIn_append_left (n l : List Char) :
    occursIn n l = true → ∀ m, occursIn n (m ++ l) = true := by
  intro h m
  induction m with
  | nil => simpa using h
  | cons c cs ih => simp [occursIn, ih]

theorem occursIn_sandwich (a b c : List Char) :
    occursIn b (a ++ (b ++ c)) = true := by
  apply occursIn_append_left
  cases b with
  | nil => exact occursIn_nil_left c
  | cons d ds =>
    have h := startsWithL_append (d :: ds) c
    simp only [occursIn, Bool.or_eq_true]
    exact Or.inl h

/-! ## A backtracking matcher for the regex dialect used by the source -/

/-- Pattern syntax: exactly the constructs appearing in the regular
expressions of `extractValidChessMove` (character classes, sequencing,
alternation, greedy `?`, greedy `\s+`-style one-or-more of a class, one
capturing group, `\b`, `^`, `$`). -/
inductive RE where
  | eps
  | chr (p : Char → Bool)
  | seq (a b : RE)
  | alt (a b : RE)
  | opt (a : RE)
  | moreOf (p : Char → Bool)
  | grp (a : RE)
  | wb
  | bos
  | eos

/-- JavaScript `\w` (word character) for `\b` boundaries. -/
def isWordChar (c : Char) : Bool :=
  (65 ≤ c.toNat && c.toNat ≤ 90) || (97 ≤ c.toNat && c.toNat ≤ 122) ||
  (48 ≤ c.toNat && c.toNat ≤ 57) || c == Char.ofNat 95

/-- Word/non-word transition between the previous character (none at the
start of the input) and the next one (none at the end). -/
def wordBoundary (prev : Option Char) (next : Option Char) : Bool :=
  (prev.map isWordChar).getD false != (next.map isWordChar).getD false

/-- Greedy Kleene-star of a character class, in continuation style:
consume as many `p`-characters as possible, backtracking one at a time
into the continuation `k`. -/
def starRun (p : Char → Bool)
    (k : List Char → Option Char → Option (List Char) → Option α) :
    List Char → Option Char → Option (List Char) → Option α
  | [], prev, cap => k [] prev cap
  | c :: rest, prev, cap =>
    if p c then
      Option.orElse (starRun p k rest (some c) cap) (fun _ => k (c :: rest) prev cap)
    else k (c :: rest) prev cap

/-- Backtracking matcher in continuation-passing style.  `s` is the
remaining input, `prev` the character just before it (for `\b` and `^`),
`cap` the contents of the capturing group if one has matched.  The
continuation receives the rest of the input, the new previous character
and the capture.  Alternation and optionals try the left/consuming
branch first, as JavaScript regexes do. -/
def RE.runM (re : RE) (s : List Char) (prev : Option Char) (cap : Option (List Char))
    (k : List Char → Option Char → Option (List Char) → Option α) : Option α :=
  match re with
  | .eps => k s prev cap
  | .chr p =>
    match s with
    | [] => none
    | c :: rest => if p c then k rest (some c) cap else none
  | .seq a b => a.runM s prev cap (fun s1 p1 c1 => b.runM s1 p1 c1 k)
  | .alt a b => Option.orElse (a.runM s prev cap k) (fun _ => b.runM s prev cap k)
  | .opt a => Option.orElse (a.runM s prev cap k) (fun _ => k s prev cap)
  | .moreOf p =>
    match s with
    | [] => none
    | c :: rest => if p c then starRun p k rest (some c) cap else none
  | .grp a =>
    a.runM s prev cap (fun s1 p1 _ =>
      k s1 p1 (some (s.take (s.length - s1.length))))
  | .wb => if wordBoundary prev s.head? then k s prev cap else none
  | .bos => if prev.isNone then k s prev cap else none
  | .eos => if s.isEmpty then k s prev cap else none

/-- Try to match `re` at the current position; on success return the
number of consumed characters and the capture. -/
def matchAt (re : RE) (s : List Char) (prev : Option Char) :
    Option (Nat × Option (List Char)) :=
  re.runM s prev none (fun s1 _ c1 => some (s.length - s1.length, c1))

/-- Scan for the leftmost match of `re`, as JavaScript regex search
does: try each position in turn.  On success return the matched
characters, the remaining input, the character preceding that remaining
input, and the capture. -/
def searchFrom (re : RE) : List Char → Option Char →
    Option (List Char × List Char × Option Char × Option (List Char))
  | s, prev =>
    match matchAt re s prev with
    | some (n, cap) =>
      some (s.take n, s.drop n,
        (if n = 0 then prev else (s.take n).getLast? ), cap)
    | none =>
      match s with
      | [] => none
      | c :: rest => searchFrom re rest (some c)

/-- Collect all matches of `re` in order, as `text.match(re, 'g')`
does: repeated leftmost search, resuming after each match (advancing one
character after a zero-length match). -/
def globalAux (re : RE) : Nat → List Char → Option Char → List (List Char)
  | 0, _, _ => []
  | fuel + 1, s, prev =>
    match searchFrom re s prev with
    | none => []
    | some (m, rest, prev1, _) =>
      if m.isEmpty then
        match rest with
        | [] => [m]
        | c :: r => m :: globalAux re fuel r (some c)
      else m :: globalAux re fuel rest prev1

/-- All matches of `re` over `s` (the `g` flag). -/
def globalMatches (re : RE) (s : List Char) : List (List Char) :=
  globalAux re (s.length + 1) s none

/-- Unanchored `RegExp.test`. -/
def reTest (re : RE) (s : List Char) : Bool :=
  (searchFrom re s none).isSome

/-- First match of `re` over `s`, returning the contents of the
capturing group (`match[match.length - 1]` in the source, whose last
group is the move token in every contextual pattern). -/
def firstCapture (re : RE) (s : List Char) : Option (List Char) :=
  match searchFrom re s none with
  | some (_, _, _, some cap) => some cap
  | _ => none

/-- Sequence a list of patterns. -/
def seqs (l : List RE) : RE := l.foldr RE.seq RE.eps

/-- Case-sensitive literal. -/
def litL : List Char → RE
  | [] => RE.eps
  | c :: r => RE.seq (RE.chr (fun x => x == c)) (litL r)

/-- Case-insensitive literal (the `i` flag). -/
def litIL : List Char → RE
  | [] => RE.eps
  | c :: r => RE.seq (RE.chr (fun x => x.toLower == c.toLower)) (litIL r)

def lit (s : String) : RE := litL s.data

def litI (s : String) : RE := litIL s.data

/-! ## The move extractor (`extractValidChessMove`) -/

/-- Character class `[a-h]`. -/
def fileCh : RE := RE.chr (fun c => 97 ≤ c.toNat && c.toNat ≤ 104)

/-- Character class `[1-8]`. -/
def rankCh : RE := RE.chr (fun c => 49 ≤ c.toNat && c.toNat ≤ 56)

/-- Character class `[KQRBN]`. -/
def pieceCh : RE :=
  RE.chr (fun c => c == 'K' || c == 'Q' || c == 'R' || c == 'B' || c == 'N')

/-- Character class `[\+#]`. -/
def plusHashCh : RE := RE.chr (fun c => c == '+' || c == '#')

/-- Literal `x` (capture marker). -/
def xCh : RE := RE.chr (fun c => c == 'x')

/-- Case-insensitive `[a-h]` (the `i`-flagged contextual patterns). -/
def fileChI : RE := RE.chr (fun c => 97 ≤ c.toLower.toNat && c.toLower.toNat ≤ 104)

/-- Case-insensitive `[KQRBN]`. -/
def pieceChI : RE :=
  RE.chr (fun c =>
    c.toLower == 'k' || c.toLower == 'q' || c.toLower == 'r' ||
    c.toLower == 'b' || c.toLower == 'n')

/-- Case-insensitive `x`. -/
def xChI : RE := RE.chr (fun c => c.toLower == 'x')

/-- JavaScript `\s`. -/
def wsCh (c : Char) : Bool := c.isWhitespace

/-- Regex `\b([KQRBN][a-h]?[1-8]?x?[a-h][1-8][\+#]?)\b` (the group is the
whole body, so the `g`-flag match strings equal the group). -/
def pieceMoveRE : RE :=
  seqs [RE.wb, pieceCh, RE.opt fileCh, RE.opt rankCh, RE.opt xCh,
        fileCh, rankCh, RE.opt plusHashCh, RE.wb]

/-- Regex `\b([a-h][1-8][\+#]?)\b` (pawn moves). -/
def pawnMoveRE : RE :=
  seqs [RE.wb, fileCh, rankCh, RE.opt plusHashCh, RE.wb]

/-- Regex `\b([a-h]x[a-h][1-8][\+#]?)\b` (pawn captures). -/
def pawnCaptureRE : RE :=
  seqs [RE.wb, fileCh, xCh, fileCh, rankCh, RE.opt plusHashCh, RE.wb]

/-- Regex `\b(O-O(?:-O)?[\+#]?)\b` (castling). -/
def castleRE : RE :=
  seqs [RE.wb, lit "O-O", RE.opt (lit "-O"), RE.opt plusHashCh, RE.wb]

/-- The ordered list `moveRegexPatterns` of the source. -/
def moveRegexPatterns : List RE :=
  [pieceMoveRE, pawnMoveRE, pawnCaptureRE, castleRE]

/-- Regex `^[a-h][1-8]|[KQRBN][a-h]?[1-8]?x?[a-h][1-8]|O-O(-O)?$`, used
with `.test` on short responses.  As in JavaScript, `^` binds only to
the first alternative and `$` only to the last. -/
def shortDirectRE : RE :=
  RE.alt (seqs [RE.bos, fileCh, rankCh])
    (RE.alt (seqs [pieceCh, RE.opt fileCh, RE.opt rankCh, RE.opt xCh, fileCh, rankCh])
      (seqs [lit "O-O", RE.opt (lit "-O"), RE.eos]))

/-- The move token alternative `[KQRBN]?[a-h]?[1-8]?x?[a-h][1-8]|O-O(?:-O)?`
inside the `i`-flagged contextual patterns; it is the last capturing
group of each pattern. -/
def ctxMoveGroup : RE :=
  RE.grp (RE.alt
    (seqs [RE.opt pieceChI, RE.opt fileChI, RE.opt rankCh, RE.opt xChI, fileChI, rankCh])
    (seqs [litI "O-O", RE.opt (litI "-O")]))

/-- Regex `\b(play|move|choose|select|best|recommend|suggest)s?\s+(<move>)/i`. -/
def ctxPattern1 : RE :=
  seqs [RE.wb,
    RE.alt (litI "play") (RE.alt (litI "move") (RE.alt (litI "choose")
      (RE.alt (litI "select") (RE.alt (litI "best")
        (RE.alt (litI "recommend") (litI "suggest")))))),
    RE.opt (RE.chr (fun c => c.toLower == 's')),
    RE.moreOf wsCh, ctxMoveGroup]

/-- Regex `best move (is|would be) (<move>)/i`. -/
def ctxPattern2 : RE :=
  seqs [litI "best move ", RE.alt (litI "is") (litI "would be"),
    litI " ", ctxMoveGroup]

/-- Regex `I('ll| will) (play|move|choose|select) (<move>)/i`. -/
def ctxPattern3 : RE :=
  seqs [litI "I",
    RE.alt (litIL [sq, 'l', 'l']) (litI " will"),
    litI " ",
    RE.alt (litI "play") (RE.alt (litI "move") (RE.alt (litI "choose") (litI "select"))),
    litI " ", ctxMoveGroup]

/-- The ordered list `contextPatterns` of the source. -/
def contextPatterns : List RE := [ctxPattern1, ctxPattern2, ctxPattern3]

/-- The error/refusal phrases of the `errorPatterns` array; each is a
literal regular expression with the `i` flag. -/
def errorPhrases : List (List Char) :=
  ["error".data, "invalid".data, "illegal".data, "cannot".data,
   "not allowed".data, "认证失败".data, "authentication failed".data,
   "unauthorized".data, "api key".data, "token".data]

/-- The error-phrase guard: a phrase matches the (trimmed) response
text, or the reasoning text is non-empty (truthy) and a phrase matches
it.  On a hit the source returns the empty candidate at once. -/
def errorGuard (cleaned reasoning : List Char) : Bool :=
  errorPhrases.any (fun p =>
    occursCI p cleaned || (!reasoning.isEmpty && occursCI p reasoning))

/-- The helper `extractMovesFromText`: for each move regex in order,
push every `g`-flag match found in the text. -/
def movesFromText (text : List Char) : List (List Char) :=
  moveRegexPatterns.flatMap (fun re => globalMatches re text)

/-- The contextual scan: for each contextual pattern in order, take the
first match and push the last capturing group when it is truthy
(non-empty). -/
def contextMoves (combined : List Char) : List (List Char) :=
  contextPatterns.filterMap (fun re =>
    match firstCapture re combined with
    | some cap => if cap.isEmpty then none else some cap
    | none => none)

/-- The full `potentialMoves` array built by `extractValidChessMove`,
in push order: the short direct-match candidate, the regex matches over
the cleaned response, the regex matches over the reasoning text (when
truthy), then the contextual captures over
`cleanedResponse + ' ' + reasoningText`. -/
def potentialMoves (cleaned reasoning : List Char) : List (List Char) :=
  (if cleaned.length < 6 ∧ reTest shortDirectRE cleaned then [cleaned] else [])
  ++ movesFromText cleaned
  ++ (if reasoning.isEmpty then [] else movesFromText reasoning)
  ++ contextMoves (cleaned ++ [' '] ++ reasoning)

/-- The legality filter predicate of the source:
`legalMoves.includes(move) || legalMoves.some(lm => lm.toLowerCase() === move.toLowerCase())`. -/
def legalMoveMatch (legal : List String) (m : List Char) : Bool :=
  legal.any (fun lm => lm.data == m) ||
  legal.any (fun lm => lowerL lm.data == lowerL m)

/-- First line of the text (`split('\n')[0]`). -/
def firstLineOf (s : List Char) : List Char :=
  s.takeWhile (fun c => !(c == Char.ofNat 10))

/-- The body of `extractValidChessMove` after its falsy-argument early
return: error-phrase guard; candidate collection; legality filtering;
unfiltered fallback; first-line fallback; and finally the trimmed
response itself.  `cleaned` is the trimmed response text, `reasoning`
the raw reasoning text. -/
def extractCore (cleaned reasoning : List Char)
    (legalMoves : Option (List String)) : String :=
  if errorGuard cleaned reasoning then "" else
  let pm := potentialMoves cleaned reasoning
  let lpm : List (List Char) :=
    match legalMoves with
    | some legal =>
      if 0 < legal.length ∧ 0 < pm.length then pm.filter (legalMoveMatch legal)
      else []
    | none => []
  match lpm with
  | m :: _ => String.mk m
  | [] =>
    match pm with
    | m :: _ => String.mk m
    | [] =>
      let firstLine := jsTrim (firstLineOf cleaned)
      if 0 < firstLine.length ∧ firstLine.length < 10 then String.mk firstLine
      else String.mk cleaned

/-- The function `extractValidChessMove(responseText, reasoningText = '',
legalMoves = null)` of the Grok module: both arguments falsy (empty)
returns the empty candidate at once, otherwise the cascade of
`extractCore` runs on the trimmed response. -/
def extractValidChessMove (responseText reasoningText : String)
    (legalMoves : Option (List String)) : String :=
  if responseText == "" && reasoningText == "" then ""
  else extractCore (jsTrim responseText.data) reasoningText.data legalMoves

/-! ## Settings objects (`settings.js`)

The persistent settings object has the literal shape of
`Settings.defaults`: per-player objects with `provider`, `model`,
`apiKey`, `streaming`, `temperature`, `maxTokens` (and, once the retry
handler has written it, `customPrompt`), and a `general` object holding
only `maxRetries` and `moveDelay`.  JavaScript numbers are embedded as
`ℚ` (temperature) and `ℤ` (token counts). -/

structure PlayerSettings where
  provider : String
  model : String
  apiKey : String
  streaming : Bool
  temperature : ℚ
  maxTokens : ℤ
  /-- Absent in `Settings.defaults`; written by `Game.handleInvalidMove`
  and read back as `playerSettings.customPrompt` (undefined = `none`). -/
  customPrompt : Option String
deriving DecidableEq, Repr

/-- The `general` object of `Settings.defaults` holds exactly
`maxRetries` and `moveDelay`; `updateSettingsFromForm` and the
`loadSettings` merge write only these two keys. -/
structure GeneralSettings where
  maxRetries : Nat
  moveDelay : Nat
deriving DecidableEq, Repr

/-- The default per-player settings (`Settings.defaults.white` /
`.black`): no provider/model/key yet, streaming on, temperature 0.7,
1024 tokens, and no `customPrompt` property. -/
def defaultPlayerSettings : PlayerSettings :=
  { provider := "", model := "", apiKey := "", streaming := true,
    temperature := 7/10, maxTokens := 1024, customPrompt := none }

/-- The default general settings: `maxRetries: 3, moveDelay: 1000`. -/
def defaultGeneralSettings : GeneralSettings :=
  { maxRetries := 3, moveDelay := 1000 }

/-- Reading `generalSettings.temperature` in `Game.makeNextMove`: the
general settings object has no such property, so the access yields
`undefined`. -/
def GeneralSettings.temperatureProp (_ : GeneralSettings) : Option ℚ := none

/-- Reading `generalSettings.maxTokens`: no such property, `undefined`. -/
def GeneralSettings.maxTokensProp (_ : GeneralSettings) : Option ℤ := none

/-- Reading `generalSettings.streaming`: no such property, `undefined`. -/
def GeneralSettings.streamingProp (_ : GeneralSettings) : Option Bool := none

/-- JavaScript `x || d` for a possibly-undefined number (`undefined`
and `0` are falsy). -/
def jsOrQ (x : Option ℚ) (d : ℚ) : ℚ :=
  match x with
  | none => d
  | some v => if v = 0 then d else v

/-- JavaScript `x || d` for a possibly-undefined integer. -/
def jsOrZ (x : Option ℤ) (d : ℤ) : ℤ :=
  match x with
  | none => d
  | some v => if v = 0 then d else v

/-- JavaScript `x || d` for a possibly-undefined string (`undefined`
and the empty string are falsy). -/
def jsOrStr (x : Option String) (d : String) : String :=
  match x with
  | none => d
  | some v => if v = "" then d else v

/-- JavaScript truthiness of a possibly-undefined boolean. -/
def jsTruthy (x : Option Bool) : Bool := x.getD false

/-! ## The orchestrator's request configuration (`Game.makeNextMove`) -/

/-- The `config` object literal that `Game.makeNextMove` passes to
`callAIModel` (settings.js lines 577–587), plus the `customPrompt`
property that `callAIModel` re-adds from `config.customPrompt` — a key
the orchestrator never sets, so it is always `undefined`. -/
structure AIConfig where
  apiKey : String
  model : String
  temperature : ℚ
  maxTokens : ℤ
  streaming : Option Bool
  userPrompt : Option String
  retryCount : Nat
  legalMoves : List String
  customPrompt : Option String
deriving DecidableEq, Repr

/-- Build the request configuration exactly as `Game.makeNextMove`
does: `temperature: generalSettings.temperature || 0.7`,
`maxTokens: generalSettings.maxTokens || 2048`,
`streaming: generalSettings.streaming`,
`userPrompt: playerSettings.customPrompt`, plus the current retry count
and legal moves; `callAIModel` then spreads the object and adds
`customPrompt: config.customPrompt` (undefined). -/
def buildAIConfig (ps : PlayerSettings) (g : GeneralSettings)
    (retryCount : Nat) (legalMoves : List String) : AIConfig :=
  { apiKey := ps.apiKey,
    model := ps.model,
    temperature := jsOrQ g.temperatureProp (7/10),
    maxTokens := jsOrZ g.maxTokensProp 2048,
    streaming := g.streamingProp,
    userPrompt := ps.customPrompt,
    retryCount := retryCount,
    legalMoves := legalMoves,
    customPrompt := none }

/-! ## Retry escalation (`Game.handleInvalidMove`) -/

/-- Game status values used by the orchestrator. -/
inductive GStatus where
  | idle
  | running
  | paused
  | finished
deriving DecidableEq, Repr

/-- The parameter escalation of `handleInvalidMove` (applied from the
second retry on): `temperature = Math.min(temperature + 0.3, 1.0)`,
`maxTokens = Math.min(maxTokens + 500, 4096)`, written into the
persistent player settings object. -/
def escalateSettings (ps : PlayerSettings) : PlayerSettings :=
  { ps with
    temperature := min (ps.temperature + 3/10) 1,
    maxTokens := min (ps.maxTokens + 500) 4096 }

/-- The enriched prompt `handleInvalidMove` writes into
`playerSettings.customPrompt` (settings.js line 715). -/
def enrichedPrompt (fen piecePositions invalidMove : String)
    (legal : List String) : String :=
  "Current board state (FEN): " ++ fen ++
  "\n\nPiece positions: " ++ piecePositions ++
  "\n\nPrevious invalid move: " ++ invalidMove ++
  "\n\nLegal moves: " ++ String.intercalate ", " legal ++
  "\n\nPlease select a valid move from the list of legal moves provided."

/-- Result of one `handleInvalidMove` call: the game status, the new
retry counter, the (possibly mutated) player settings, and whether a
retry was scheduled. -/
structure HIMResult where
  status : GStatus
  retryCount : Nat
  ps : PlayerSettings
  scheduledRetry : Bool
deriving DecidableEq, Repr

/-- `Game.handleInvalidMove`, embedded step for step: increment the
retry counter; if it has reached `maxRetries`, pause the game, reset the
counter and abandon the ply; otherwise escalate the stored sampling
parameters from the second retry on, write the enriched prompt into the
player settings, and schedule another attempt.  The board description
(`describeBoardState`) and legal moves are inputs here because the chess
rules engine is an external collaborator. -/
def handleInvalidMove (maxRetries : Nat) (fen piecePositions : String)
    (legal : List String) (retryCount : Nat) (ps : PlayerSettings)
    (moveString : String) : HIMResult :=
  let rc := retryCount + 1
  if maxRetries ≤ rc then
    { status := .paused, retryCount := 0, ps := ps, scheduledRetry := false }
  else
    let ps1 := if 1 < rc then escalateSettings ps else ps
    let ps2 := { ps1 with
      customPrompt := some (enrichedPrompt fen piecePositions moveString legal) }
    { status := .running, retryCount := rc, ps := ps2, scheduledRetry := true }

/-- The accepted-move path of `Game.makeNextMove` (lines 599–622): the
retry counter is reset to 0; the player settings object is not touched
(in particular `customPrompt`, `temperature` and `maxTokens` keep
whatever the retry handler wrote). -/
def acceptMove (_retryCount : Nat) (ps : PlayerSettings) : Nat × PlayerSettings :=
  (0, ps)

/-- Outcome of evaluating one AI answer for the current ply: the
candidate was legal and applied, or it was empty/illegal
(`this.chess.move(moveString)` returned null). -/
inductive EvalOutcome where
  | accepted (m : String)
  | rejected (m : String)
deriving DecidableEq, Repr

/-- Whether an outcome is a failed evaluation. -/
def EvalOutcome.isRejected : EvalOutcome → Bool
  | .accepted _ => false
  | .rejected _ => true

/-- Trace of one ply: number of AI requests issued, final status, final
retry counter, final player settings, the accepted move if any, and the
value of the attempt counter recorded after each failed evaluation. -/
structure PlyTrace where
  requests : Nat
  status : GStatus
  retryCount : Nat
  ps : PlayerSettings
  acceptedMove : Option String
  attemptsSeen : List Nat
deriving DecidableEq, Repr

/-- One ply of the `makeNextMove`/`handleInvalidMove` loop, driven by a
list of evaluation outcomes (the rules-engine verdicts on successive AI
answers).  Each consumed outcome corresponds to one issued AI request;
a rejected outcome goes through `handleInvalidMove`, which either
schedules the next attempt or pauses the game; an accepted outcome ends
the ply and resets the retry counter. -/
def runPly (maxRetries : Nat) (fen piecePositions : String)
    (legal : List String) :
    Nat → PlayerSettings → List EvalOutcome → PlyTrace
  | rc, ps, [] =>
    { requests := 0, status := .running, retryCount := rc, ps := ps,
      acceptedMove := none, attemptsSeen := [] }
  | _, ps, .accepted m :: _ =>
    { requests := 1, status := .running, retryCount := 0, ps := ps,
      acceptedMove := some m, attemptsSeen := [] }
  | rc, ps, .rejected m :: rest =>
    let r := handleInvalidMove maxRetries fen piecePositions legal rc ps m
    if r.scheduledRetry then
      let t := runPly maxRetries fen piecePositions legal r.retryCount r.ps rest
      { requests := t.requests + 1, status := t.status,
        retryCount := t.retryCount, ps := t.ps,
        acceptedMove := t.acceptedMove,
        attemptsSeen := r.retryCount :: t.attemptsSeen }
    else
      { requests := 1, status := r.status, retryCount := r.retryCount,
        ps := r.ps, acceptedMove := none, attemptsSeen := [rc + 1] }

/-! ## Provider adapters (`AI_MODELS` in `o-models.js`) -/

/-- The system instruction of the OpenAI adapter (and of the o-series
module). -/
def openaiSystemPrompt : String :=
  "You are a chess engine. Your task is to analyze the current board position and make the best move possible. Respond ONLY with your chosen move in standard algebraic notation. Valid examples: " ++
  sqs ++ "e4" ++ sqs ++ ", " ++ sqs ++ "Nf3" ++ sqs ++ ", " ++ sqs ++ "cxd4" ++ sqs ++
  ", " ++ sqs ++ "O-O" ++ sqs ++ ", " ++ sqs ++ "Qxb7+" ++ sqs ++
  ", etc. Be extremely careful to verify that your move is legal in the current position. For complex positions, consider checks, pins, and material threats carefully. For captures, explicitly use notation like " ++
  sqs ++ "cxd4" ++ sqs ++ " instead of just " ++ sqs ++ "d4" ++ sqs ++ "."

/-- The default user prompt shared by the OpenAI adapter, the o-series
module and the Gemini adapter. -/
def standardUserPrompt (fen : String) (history : List String) : String :=
  "Current board state (FEN): " ++ fen ++
  "\n\nMove history: " ++ String.intercalate ", " history ++
  "\n\nProvide your next move in standard algebraic notation (e.g., " ++
  sqs ++ "e4" ++ sqs ++ ", " ++ sqs ++ "Nf3" ++ sqs ++ ")."

/-- Token/sampling fields of the OpenAI request body: reasoning models
(`o3-`/`o4-` prefix) get `max_completion_tokens` only, other models get
`temperature` and `max_tokens`. -/
inductive TokenParams where
  | completionTokens (n : ℤ)
  | samplingParams (temperature : ℚ) (maxTokens : ℤ)
deriving DecidableEq, Repr

/-- The wire request built by `AI_MODELS.openai.requestFormat`. -/
structure OpenAIRequest where
  authBearer : String
  model : String
  systemContent : String
  userContent : String
  tokenParams : TokenParams
  streamField : Option Bool
deriving DecidableEq, Repr

/-- `AI_MODELS.openai.requestFormat`: bearer auth, fixed system
instruction, `config.userPrompt || <default>` as user content,
model-prefix-dependent token fields, and `stream: config.streaming`. -/
def openaiRequest (fen : String) (history : List String)
    (config : AIConfig) : OpenAIRequest :=
  { authBearer := config.apiKey,
    model := config.model,
    systemContent := openaiSystemPrompt,
    userContent := jsOrStr config.userPrompt (standardUserPrompt fen history),
    tokenParams :=
      if config.model.startsWith "o4-" || config.model.startsWith "o3-" then
        .completionTokens config.maxTokens
      else
        .samplingParams config.temperature config.maxTokens,
    streamField := config.streaming }

/-- The wire request built by `generateOModelRequest` in the o-series
module (`max_completion_tokens: config.maxTokens || 150`). -/
structure OModelRequest where
  authBearer : String
  model : String
  systemContent : String
  userContent : String
  maxCompletionTokens : ℤ
deriving DecidableEq, Repr

/-- `generateOModelRequest` of `o-models.js`. -/
def oModelRequest (fen : String) (history : List String)
    (config : AIConfig) : OModelRequest :=
  { authBearer := config.apiKey,
    model := config.model,
    systemContent := openaiSystemPrompt,
    userContent := jsOrStr config.userPrompt (standardUserPrompt fen history),
    maxCompletionTokens := jsOrZ (some config.maxTokens) 150 }

/-- The system instruction of the Gemini adapter. -/
def geminiSystemText : String :=
  "You are a chess engine. Your task is to analyze the current board position and make the best move possible. Respond ONLY with your chosen move in standard algebraic notation (e.g., " ++
  sqs ++ "e4" ++ sqs ++ ", " ++ sqs ++ "Nf3" ++ sqs ++ ", etc.)."

/-- The wire request built by `AI_MODELS.gemini.requestFormat`. -/
structure GeminiRequest where
  model : String
  urlKey : String
  systemText : String
  userText : String
  temperature : ℚ
  maxOutputTokens : ℤ
deriving DecidableEq, Repr

/-- `AI_MODELS.gemini.requestFormat`: API key in the URL query, a
`contents`/`parts` body whose user part is always the standard prompt —
the function never reads `config.userPrompt` or `config.customPrompt`,
so retry enrichment never reaches a Gemini request. -/
def geminiRequest (fen : String) (history : List String)
    (config : AIConfig) : GeminiRequest :=
  { model := config.model,
    urlKey := config.apiKey,
    systemText := geminiSystemText,
    userText := standardUserPrompt fen history,
    temperature := config.temperature,
    maxOutputTokens := config.maxTokens }

/-- The system instruction of the xAI adapter. -/
def xaiSystemPrompt : String :=
  "You are a chess engine analyzing a position to make the best legal move. Your ONLY task is to choose and return a single valid move in standard algebraic notation (SAN). DO NOT explain your reasoning or provide any commentary. DO NOT return the string " ++
  sqs ++ "e4" ++ sqs ++
  " unless the e-pawn can legally move to e4. Valid examples: " ++
  sqs ++ "e4" ++ sqs ++ ", " ++ sqs ++ "Nf3" ++ sqs ++ ", " ++ sqs ++ "cxd4" ++
  sqs ++ ", " ++ sqs ++ "O-O" ++ sqs ++ ", " ++ sqs ++ "Qxb7+" ++ sqs ++
  ". For captures, explicitly use notation like " ++ sqs ++ "cxd4" ++ sqs ++
  ". Only return a legal move!"

/-- The standard user prompt of the xAI adapter. -/
def xaiStandardUserPrompt (fen : String) (history : List String) : String :=
  "Current board state: " ++ fen ++
  "\n\nMove history: " ++ String.intercalate ", " history ++
  "\n\nProvide your NEXT MOVE ONLY in standard algebraic notation."

/-- A chat message of the xAI request (`reasoning_content` only on the
spliced-in example for the mini model). -/
structure ChatMessage where
  role : String
  content : String
  reasoningContent : Option String
deriving DecidableEq, Repr

/-- The value `AI_MODELS.xai.requestFormat` returns on success:
messages plus the options object handed to the Grok module. -/
structure XaiRequestData where
  messages : List ChatMessage
  temperature : ℚ
  maxTokens : ℤ
  reasoningEffort : Option String
  streaming : Option Bool
deriving DecidableEq, Repr

/-- A JavaScript runtime error thrown during request building. -/
inductive JsRuntimeError where
  | referenceError (msg : String)
deriving DecidableEq, Repr

/-- `AI_MODELS.xai.requestFormat`, embedded step for step.  The branch
`if (config.retryCount > 0)` executes
`cleanOptions.max_tokens = ...` where `cleanOptions` is declared
nowhere in the program, so evaluating it throws a `ReferenceError`
before any request data is produced.  On the non-retry path the mini
model gets an example assistant message spliced in at index 1, and the
options are `temperature: config.temperature || 0.7`,
`max_tokens: config.retryCount > 0 ? 1024 : (config.maxTokens || 2048)`
and a model-dependent `reasoning_effort`. -/
def xaiRequestFormat (fen : String) (history : List String)
    (config : AIConfig) : Except JsRuntimeError XaiRequestData :=
  let userPrompt :=
    match config.customPrompt with
    | some p => if p == "" then xaiStandardUserPrompt fen history else p
    | none => xaiStandardUserPrompt fen history
  let messages : List ChatMessage :=
    [{ role := "system", content := xaiSystemPrompt, reasoningContent := none },
     { role := "user", content := userPrompt, reasoningContent := none }]
  if 0 < config.retryCount then
    .error (.referenceError "cleanOptions is not defined")
  else
    let messages :=
      if config.model == "grok-3-mini-beta" && config.retryCount == 0 then
        [{ role := "system", content := xaiSystemPrompt, reasoningContent := none },
         { role := "assistant", content := "e4",
           reasoningContent := some "Looking at this position, I have several options." },
         { role := "user", content := userPrompt, reasoningContent := none }]
      else messages
    .ok
      { messages := messages,
        temperature := jsOrQ (some config.temperature) (7/10),
        maxTokens :=
          if 0 < config.retryCount then 1024 else jsOrZ (some config.maxTokens) 2048,
        reasoningEffort :=
          if config.model == "grok-3-mini-beta" then
            some (if 0 < config.retryCount then "medium" else "high")
          else none,
        streaming := config.streaming }

/-- What happens to the game when an xAI attempt is made:
`requestFormat` is called outside the `try` of `callAIModel`'s fetch
path, and any exception reaches the `catch` of `Game.makeNextMove`,
which sets the game status to paused (settings.js lines 658–660); on
success the game keeps running and the wire request is produced. -/
def xaiAttemptStatus (fen : String) (history : List String)
    (config : AIConfig) : GStatus × Option XaiRequestData :=
  match xaiRequestFormat fen history config with
  | .error _ => (.paused, none)
  | .ok r => (.running, some r)

/-! ## Streaming accumulation (`streamGrokResponse`) -/

/-- One parsed server-sent-event delta
(`choices[0].delta.content` / `.reasoning_content`). -/
structure StreamDelta where
  content : Option String
  reasoning : Option String
deriving DecidableEq, Repr

/-- One `onUpdate` call: the cumulative content so far, and the
cumulative reasoning when the update was triggered by a reasoning
delta. -/
structure StreamUpdate where
  content : String
  reasoning : Option String
deriving DecidableEq, Repr

/-- Processing of one delta in the read loop of `streamGrokResponse`:
a truthy `delta.content` is appended to `fullContent` and an update is
emitted; for the mini model a truthy `delta.reasoning_content` is
appended to `fullReasoning` and a further update (carrying the current
`fullContent`) is emitted. -/
def streamStep (isMini : Bool) (acc : String × String × List StreamUpdate)
    (d : StreamDelta) : String × String × List StreamUpdate :=
  let fc := acc.1
  let fr := acc.2.1
  let ups := acc.2.2
  let fc1 := match d.content with
    | some c => if c == "" then fc else fc ++ c
    | none => fc
  let ups1 := match d.content with
    | some c => if c == "" then ups else ups ++ [{ content := fc1, reasoning := none }]
    | none => ups
  let fr1 :=
    if isMini then
      match d.reasoning with
      | some r => if r == "" then fr else fr ++ r
      | none => fr
    else fr
  let ups2 :=
    if isMini then
      match d.reasoning with
      | some r =>
        if r == "" then ups1
        else ups1 ++ [{ content := fc1, reasoning := some fr1 }]
      | none => ups1
    else ups1
  (fc1, fr1, ups2)

/-- The whole read loop: fold over the parsed deltas, starting from
empty accumulators. -/
def streamGrokAccum (isMini : Bool) (ds : List StreamDelta) :
    String × String × List StreamUpdate :=
  ds.foldl (streamStep isMini) ("", "", [])

/-- The `response` field returned by `streamGrokResponse` once the
stream ends: in a chess context the accumulated text is passed through
`extractValidChessMove` (with the accumulated reasoning for the mini
model); otherwise the accumulated text itself is returned. -/
def streamGrokResult (isChess isMini : Bool) (ds : List StreamDelta) : String :=
  let acc := streamGrokAccum isMini ds
  if isMini then
    if isChess then extractValidChessMove acc.1 acc.2.1 none else acc.1
  else
    if isChess then extractValidChessMove acc.1 "" none else acc.1

/-- Each string of the list starts with the one before it
(prefix-extension chain). -/
def prefixChainOk : List String → Bool
  | [] => true
  | [_] => true
  | a :: b :: r => startsWithL b.data a.data && prefixChainOk (b :: r)

/-! ## Theorems -/

/-- Helper: when the guard passes and the legality filter is non-empty,
`extractCore` returns the head of the filtered candidate list. -/
theorem extractCore_of_filter_cons (cleaned reasoning : List Char)
    (legal : List String) (m : List Char) (tl : List (List Char))
    (hg : errorGuard cleaned reasoning = false)
    (hlegal : 0 < legal.length)
    (hfc : (potentialMoves cleaned reasoning).filter (legalMoveMatch legal) = m :: tl) :
    extractCore cleaned reasoning (some legal) = String.mk m := by
  have hpm : 0 < (potentialMoves cleaned reasoning).length := by
    rcases hpme : potentialMoves cleaned reasoning with _ | ⟨a, l⟩
    · rw [hpme] at hfc
      simp at hfc
    · simp
  unfold extractCore
  rw [if_neg (by simp [hg])]
  simp only [if_pos (And.intro hlegal hpm), hfc]

/-- Helper: when the guard passes, no legality filtering applies (or it
is empty) and the candidate list is empty, `extractCore` falls back to
the first line, or to the whole trimmed response. -/
theorem extractCore_of_no_candidates (cleaned reasoning : List Char)
    (lm : Option (List String))
    (hg : errorGuard cleaned reasoning = false)
    (hpm : potentialMoves cleaned reasoning = []) :
    extractCore cleaned reasoning lm =
      (if 0 < (jsTrim (firstLineOf cleaned)).length ∧
          (jsTrim (firstLineOf cleaned)).length < 10
       then String.mk (jsTrim (firstLineOf cleaned))
       else String.mk cleaned) := by
  unfold extractCore
  rw [if_neg (by simp [hg])]
  cases lm with
  | none => simp only [hpm]
  | some legal =>
    simp only [hpm]
    rw [if_neg (by
      intro hc
      simp at hc)]

/-- C2.  If, after the error-phrase guard has passed, the candidate
collection (direct match, pattern scan over response and reasoning, and
contextual-phrase scan) contains at least one candidate matching the
supplied legal-move set case-insensitively, then the extractor returns
a collected candidate matching a legal move — never a token outside the
set.  The guard hypothesis makes precise that the scan actually runs:
on a guard hit the source returns before scanning. -/
theorem extract_legal_filter (rt rs : String) (legal : List String)
    (hg : errorGuard (jsTrim rt.data) rs.data = false)
    (hf : (potentialMoves (jsTrim rt.data) rs.data).filter (legalMoveMatch legal) ≠ []) :
    (extractValidChessMove rt rs (some legal)).data ∈
      potentialMoves (jsTrim rt.data) rs.data ∧
    legalMoveMatch legal (extractValidChessMove rt rs (some legal)).data = true := by
  rcases hfc : (potentialMoves (jsTrim rt.data) rs.data).filter (legalMoveMatch legal)
    with _ | ⟨m, tl⟩
  · exact absurd hfc hf
  · have hm : m ∈ (potentialMoves (jsTrim rt.data) rs.data).filter (legalMoveMatch legal) := by
      rw [hfc]
      exact List.mem_cons_self m tl
    have hmf := List.mem_filter.mp hm
    have hlegal : 0 < legal.length := by
      rcases legal with _ | ⟨a, l⟩
      · simp [legalMoveMatch] at hmf
      · simp
    have hne : (rt == "" && rs == "") = false := by
      by_contra hbe
      have hbt : (rt == "" && rs == "") = true := by
        cases hb : (rt == "" && rs == "") with
        | false => exact absurd hb hbe
        | true => rfl
      have hrt : rt = "" := by
        have := (Bool.and_eq_true _ _).mp hbt
        exact beq_iff_eq.mp this.1
      have hrs : rs = "" := by
        have := (Bool.and_eq_true _ _).mp hbt
        exact beq_iff_eq.mp this.2
      rw [hrt, hrs] at hfc
      have hempty : potentialMoves (jsTrim ("" : String).data) ("" : String).data = [] := by
        decide
      rw [hempty] at hfc
      simp at hfc
    have hext : extractValidChessMove rt rs (some legal) = String.mk m := by
      unfold extractValidChessMove
      rw [hne]
      simp only [Bool.false_eq_true, if_false]
      exact extractCore_of_filter_cons _ _ _ _ _ hg hlegal hfc
    rw [hext]
    exact ⟨hmf.1, hmf.2⟩

/-- C2 witness: scenario B of the specification — verbose text naming
`Nf3`, legal moves `Nf3`, `e4`, `d4`; the returned candidate is a
collected one matching the legal set. -/
theorem extract_legal_filter_witness :
    ("Nf3" : String).data ∈
      potentialMoves (jsTrim ("I think the best move is Nf3 because it develops quickly." : String).data) ("" : String).data ∧
    extractValidChessMove "I think the best move is Nf3 because it develops quickly." ""
      (some ["Nf3", "e4", "d4"]) = "Nf3" := by
  have h := extract_legal_filter
    "I think the best move is Nf3 because it develops quickly." ""
    ["Nf3", "e4", "d4"] (by decide) (by decide)
  have hv : extractValidChessMove
      "I think the best move is Nf3 because it develops quickly." ""
      (some ["Nf3", "e4", "d4"]) = "Nf3" := by decide
  refine ⟨?_, hv⟩
  have := h.1
  rw [hv] at this
  exact this

/-- C3.  Whenever any configured error/refusal phrase occurs
(case-insensitively) in the trimmed response text, or in a non-empty
reasoning text, the extractor returns the empty candidate — even when a
move-shaped token occurs in the same text, and whatever the legal-move
set is. -/
theorem extract_error_guard (rt rs : String) (lm : Option (List String))
    (hg : errorGuard (jsTrim rt.data) rs.data = true) :
    extractValidChessMove rt rs lm = "" := by
  unfold extractValidChessMove
  cases hne : (rt == "" && rs == "") with
  | true => simp
  | false =>
    simp only [Bool.false_eq_true, if_false]
    unfold extractCore
    rw [if_pos hg]

/-- C3 witness: scenario C of the specification — an API-key error
message that even contains the move-shaped token `e4`; the phrase guard
fires and the candidate is empty despite the supplied legal moves. -/
theorem extract_error_guard_witness :
    errorGuard (jsTrim ("Error: invalid API key, cannot play e4" : String).data)
      ("" : String).data = true ∧
    ("e4" : String).data ∈
      movesFromText ("Error: invalid API key, cannot play e4" : String).data ∧
    extractValidChessMove "Error: invalid API key, cannot play e4" ""
      (some ["e4"]) = "" := by
  refine ⟨by decide, by decide, ?_⟩
  exact extract_error_guard "Error: invalid API key, cannot play e4" ""
    (some ["e4"]) (by decide)

/-- C8 counterexample: a response with no error phrase, no candidate
from any scan, and a first line of 14 characters.  The claim says the
extractor then returns the empty candidate; the source instead returns
the whole trimmed response (`return cleanedResponse`, the last line of
`extractValidChessMove`). -/
theorem extract_fallback_counterexample :
    errorGuard (jsTrim ("zzzz zzzz zzzz" : String).data) ("" : String).data = false ∧
    potentialMoves (jsTrim ("zzzz zzzz zzzz" : String).data) ("" : String).data = [] ∧
    ¬ (jsTrim (firstLineOf (jsTrim ("zzzz zzzz zzzz" : String).data))).length < 10 ∧
    extractValidChessMove "zzzz zzzz zzzz" "" none = "zzzz zzzz zzzz" ∧
    ("zzzz zzzz zzzz" : String) ≠ "" := by
  decide

/-- C8 as amended: when the guard passes and no direct, pattern or
contextual candidate was collected, the extractor returns the trimmed
first line if it is non-empty and shorter than 10 characters, and
otherwise returns the whole trimmed response text (which is empty only
when the trimmed response itself is empty) — not the empty candidate. -/
theorem extract_fallback (rt rs : String) (lm : Option (List String))
    (hg : errorGuard (jsTrim rt.data) rs.data = false)
    (hpm : potentialMoves (jsTrim rt.data) rs.data = []) :
    extractValidChessMove rt rs lm =
      (if 0 < (jsTrim (firstLineOf (jsTrim rt.data))).length ∧
          (jsTrim (firstLineOf (jsTrim rt.data))).length < 10
       then String.mk (jsTrim (firstLineOf (jsTrim rt.data)))
       else String.mk (jsTrim rt.data)) := by
  unfold extractValidChessMove
  cases hne : (rt == "" && rs == "") with
  | true =>
    have hrt : rt = "" := beq_iff_eq.mp ((Bool.and_eq_true _ _).mp hne).1
    subst hrt
    simp only [if_pos]
    decide
  | false =>
    simp only [Bool.false_eq_true, if_false]
    exact extractCore_of_no_candidates _ _ _ hg hpm

/-- C8 amended-claim witnesses: a short first line is returned as the
fallback, and a long one makes the extractor return the whole trimmed
response. -/
theorem extract_fallback_witness :
    extractValidChessMove "zzzz zzzz zzzz" "" none = "zzzz zzzz zzzz" ∧
    extractValidChessMove "ok then.\nzzzz zzzz" "" none = "ok then." := by
  constructor
  · have h := extract_fallback "zzzz zzzz zzzz" "" none (by decide) (by decide)
    rw [h]
    decide
  · have h := extract_fallback "ok then.\nzzzz zzzz" "" none (by decide) (by decide)
    rw [h]
    decide

/-- Helper: a string starting with a non-empty string is non-empty. -/
theorem append_ne_empty_left (a b : String) (h : a ≠ "") : a ++ b ≠ "" := by
  intro hc
  apply h
  have hd := congrArg String.data hc
  rw [String.data_append] at hd
  have h1 : a.data = [] := (List.append_eq_nil.mp hd).1
  calc a = String.mk a.data := rfl
  _ = String.mk [] := by rw [h1]
  _ = "" := rfl

/-- Helper: the enriched retry prompt is never the empty string. -/
theorem enrichedPrompt_ne_empty (fen p m : String) (legal : List String) :
    enrichedPrompt fen p m legal ≠ "" := by
  unfold enrichedPrompt
  apply append_ne_empty_left
  apply append_ne_empty_left
  apply append_ne_empty_left
  apply append_ne_empty_left
  apply append_ne_empty_left
  apply append_ne_empty_left
  apply append_ne_empty_left
  apply append_ne_empty_left
  decide

/-- Helper: the joined legal-move list occurs verbatim inside the
enriched retry prompt. -/
theorem enrichedPrompt_contains_legal (fen p m : String) (legal : List String) :
    occursIn (String.intercalate ", " legal).data
      (enrichedPrompt fen p m legal).data = true := by
  unfold enrichedPrompt
  rw [String.data_append, String.data_append, List.append_assoc]
  exact occursIn_sandwich _ _ _

/-- Helper: the textual piece inventory occurs verbatim inside the
enriched retry prompt. -/
theorem enrichedPrompt_contains_pieces (fen p m : String) (legal : List String) :
    occursIn p.data (enrichedPrompt fen p m legal).data = true := by
  unfold enrichedPrompt
  simp only [String.data_append, List.append_assoc]
  apply occursIn_append_left
  apply occursIn_append_left
  apply occursIn_append_left
  exact occursIn_sandwich [] _ _

/-- Helper: shape of `handleInvalidMove` when a retry is scheduled
(`retryCount + 1 < maxRetries`). -/
theorem handleInvalidMove_scheduled (N : Nat) (fen pieces : String)
    (legal : List String) (rc : Nat) (ps : PlayerSettings) (m : String)
    (h : rc + 1 < N) :
    handleInvalidMove N fen pieces legal rc ps m =
      { status := .running, retryCount := rc + 1,
        ps := { (if 1 < rc + 1 then escalateSettings ps else ps) with
                customPrompt := some (enrichedPrompt fen pieces m legal) },
        scheduledRetry := true } := by
  unfold handleInvalidMove
  rw [if_neg (by omega)]

/-- Helper: the xAI request builder fails on every positive retry count
(the `cleanOptions` ReferenceError), and the resulting exception pauses
the game. -/
theorem xaiRetryFails (fen : String) (history : List String)
    (config : AIConfig) (h : 0 < config.retryCount) :
    xaiRequestFormat fen history config =
      .error (.referenceError "cleanOptions is not defined") ∧
    xaiAttemptStatus fen history config = (GStatus.paused, none) := by
  have h1 : xaiRequestFormat fen history config =
      .error (.referenceError "cleanOptions is not defined") := by
    unfold xaiRequestFormat
    rw [if_pos h]
  refine ⟨h1, ?_⟩
  unfold xaiAttemptStatus
  rw [h1]

/-- C9.  For every configuration with a positive retry count, the xAI
request builder evaluates the undeclared identifier `cleanOptions` and
throws a `ReferenceError` before producing any wire request; the
exception reaches the orchestrator's catch handler, which pauses the
game, so no enriched xAI retry request is ever issued. -/
theorem xai_retry_reference_error (fen : String) (history : List String)
    (config : AIConfig) (h : 0 < config.retryCount) :
    xaiRequestFormat fen history config =
      .error (.referenceError "cleanOptions is not defined") ∧
    xaiAttemptStatus fen history config = (GStatus.paused, none) :=
  xaiRetryFails fen history config h

/-- C9 witness: the first retry attempt (retry count 1) of an xAI ply
with default settings aborts with the `ReferenceError` and pauses the
game. -/
theorem xai_retry_reference_error_witness :
    0 < (buildAIConfig defaultPlayerSettings defaultGeneralSettings 1 ["e4"]).retryCount ∧
    xaiAttemptStatus "FEN0" []
      (buildAIConfig defaultPlayerSettings defaultGeneralSettings 1 ["e4"]) =
      (GStatus.paused, none) := by
  refine ⟨by decide, ?_⟩
  exact (xai_retry_reference_error "FEN0" []
    (buildAIConfig defaultPlayerSettings defaultGeneralSettings 1 ["e4"]) (by decide)).2

/-- C10.  The first-attempt request configuration does not depend on the
per-player `temperature`, `maxTokens` or `streaming` settings: two
player settings equal in every other field yield identical
configurations and identical OpenAI wire requests, because
`makeNextMove` reads those three values from the general settings
object, which holds only `maxRetries` and `moveDelay` — so every
request carries temperature 0.7 and 2048 tokens, and streaming is never
enabled (the flag is `undefined`, hence falsy, on every path). -/
theorem first_request_settings_independent (p1 p2 : PlayerSettings)
    (g : GeneralSettings) (lm : List String) (fen : String)
    (hist : List String)
    (hprovider : p1.provider = p2.provider)
    (hmodel : p1.model = p2.model)
    (hkey : p1.apiKey = p2.apiKey)
    (hcp : p1.customPrompt = p2.customPrompt) :
    p1.provider = p2.provider ∧
    buildAIConfig p1 g 0 lm = buildAIConfig p2 g 0 lm ∧
    (buildAIConfig p1 g 0 lm).temperature = 7/10 ∧
    (buildAIConfig p1 g 0 lm).maxTokens = 2048 ∧
    (buildAIConfig p1 g 0 lm).streaming = none ∧
    jsTruthy (buildAIConfig p1 g 0 lm).streaming = false ∧
    openaiRequest fen hist (buildAIConfig p1 g 0 lm) =
      openaiRequest fen hist (buildAIConfig p2 g 0 lm) := by
  have hc : buildAIConfig p1 g 0 lm = buildAIConfig p2 g 0 lm := by
    simp [buildAIConfig, hmodel, hkey, hcp]
  exact ⟨hprovider, hc, rfl, rfl, rfl, rfl, by rw [hc]⟩

/-- C10 witness: two players that differ only in temperature (0.7 vs
1.0), token budget (1024 vs 4000) and streaming (on vs off) produce the
same first-attempt configuration, with temperature 0.7, 2048 tokens and
streaming off. -/
theorem first_request_settings_independent_witness :
    buildAIConfig defaultPlayerSettings defaultGeneralSettings 0 ["e4"] =
      buildAIConfig
        { defaultPlayerSettings with
          temperature := 1, maxTokens := 4000, streaming := false }
        defaultGeneralSettings 0 ["e4"] ∧
    (buildAIConfig defaultPlayerSettings defaultGeneralSettings 0 ["e4"]).temperature = 7/10 ∧
    jsTruthy (buildAIConfig defaultPlayerSettings defaultGeneralSettings 0 ["e4"]).streaming = false := by
  have h := first_request_settings_independent defaultPlayerSettings
    { defaultPlayerSettings with
      temperature := 1, maxTokens := 4000, streaming := false }
    defaultGeneralSettings ["e4"] "FEN0" [] rfl rfl rfl rfl
  exact ⟨h.2.1, h.2.2.1, h.2.2.2.2.2.1⟩

/-- C4 counterexample: in a ply whose first two attempts fail, the
handler escalates the stored player temperature to 1.0 and the stored
token budget to 1524, but the configuration built for the third attempt
still carries temperature 0.7 and 2048 tokens — exactly the values of
the first attempt, so the vendor request's sampling temperature and
token budget are not increased on retries. -/
theorem escalation_not_in_request_counterexample :
    (let r1 := handleInvalidMove 5 "FEN0" "P0" ["e4"] 0 defaultPlayerSettings "zz"
     let r2 := handleInvalidMove 5 "FEN0" "P0" ["e4"] r1.retryCount r1.ps "zz"
     let cfgFirst := buildAIConfig defaultPlayerSettings defaultGeneralSettings 0 ["e4"]
     let cfgThird := buildAIConfig r2.ps defaultGeneralSettings r2.retryCount ["e4"]
     r2.retryCount = 2 ∧
     r2.ps.temperature = 1 ∧
     r2.ps.maxTokens = 1524 ∧
     cfgThird.temperature = 7/10 ∧
     cfgThird.temperature = cfgFirst.temperature ∧
     cfgThird.maxTokens = cfgFirst.maxTokens ∧
     (openaiRequest "FEN0" [] cfgThird).tokenParams =
       TokenParams.samplingParams (7/10) 2048) := by
  refine ⟨by decide, ?_, ?_, rfl, rfl, rfl, rfl⟩
  · show min (defaultPlayerSettings.temperature + 3/10) 1 = 1
    rw [show defaultPlayerSettings.temperature + 3/10 = (1 : ℚ) by
      norm_num [defaultPlayerSettings]]
    exact min_self 1
  · show min (defaultPlayerSettings.maxTokens + 500) 4096 = 1524
    rw [show defaultPlayerSettings.maxTokens + 500 = (1524 : ℤ) by
      norm_num [defaultPlayerSettings]]
    exact min_eq_left (by norm_num)

/-- C4 as amended: `handleInvalidMove` escalates the stored per-player
temperature (+0.3, clamped to 1.0) and token budget (+500, clamped to
4096) monotonically from the second retry on, but these stored values
never reach the vendor request: the configuration built for every
attempt carries the constant temperature 0.7 and token budget 2048 read
through the general settings object. -/
theorem escalation_monotone_but_unused (ps : PlayerSettings)
    (g : GeneralSettings) (rc : Nat) (lm : List String)
    (ht : ps.temperature ≤ 1) (hm : ps.maxTokens ≤ 4096) :
    ps.temperature ≤ (escalateSettings ps).temperature ∧
    (escalateSettings ps).temperature ≤ 1 ∧
    ps.maxTokens ≤ (escalateSettings ps).maxTokens ∧
    (escalateSettings ps).maxTokens ≤ 4096 ∧
    (buildAIConfig ps g rc lm).temperature = 7/10 ∧
    (buildAIConfig ps g rc lm).maxTokens = 2048 ∧
    (buildAIConfig (escalateSettings ps) g rc lm).temperature =
      (buildAIConfig ps g rc lm).temperature ∧
    (buildAIConfig (escalateSettings ps) g rc lm).maxTokens =
      (buildAIConfig ps g rc lm).maxTokens := by
  refine ⟨?_, ?_, ?_, ?_, rfl, rfl, rfl, rfl⟩
  · exact le_min (by linarith) ht
  · exact min_le_right _ _
  · exact le_min (by linarith) hm
  · exact min_le_right _ _

/-- C4 amended-claim witness at the default player settings. -/
theorem escalation_monotone_but_unused_witness :
    defaultPlayerSettings.temperature ≤ 1 ∧
    defaultPlayerSettings.maxTokens ≤ 4096 ∧
    defaultPlayerSettings.temperature ≤
      (escalateSettings defaultPlayerSettings).temperature ∧
    (escalateSettings defaultPlayerSettings).temperature ≤ 1 ∧
    (buildAIConfig defaultPlayerSettings defaultGeneralSettings 2 []).temperature = 7/10 := by
  have h := escalation_monotone_but_unused defaultPlayerSettings
    defaultGeneralSettings 2 [] (by norm_num [defaultPlayerSettings])
    (by norm_num [defaultPlayerSettings])
  exact ⟨by norm_num [defaultPlayerSettings], by norm_num [defaultPlayerSettings],
    h.1, h.2.1, h.2.2.2.2.1⟩

/-- C5 counterexample: after two failed attempts the handler has
escalated the stored temperature to 1.0 and written the enriched prompt
override into the persistent player settings; accepting a move resets
only the retry counter, so the next ply's first-attempt configuration
still carries the previous ply's enriched prompt, and the stored
temperature remains escalated — nothing is discarded. -/
theorem retry_state_not_discarded_counterexample :
    (let r1 := handleInvalidMove 5 "FEN-A" "PIECES-A" ["e4"] 0 defaultPlayerSettings "zz"
     let r2 := handleInvalidMove 5 "FEN-A" "PIECES-A" ["e4"] r1.retryCount r1.ps "zz"
     let next := acceptMove r2.retryCount r2.ps
     next.1 = 0 ∧
     next.2.temperature = 1 ∧
     defaultPlayerSettings.temperature = 7/10 ∧
     next.2.customPrompt = some (enrichedPrompt "FEN-A" "PIECES-A" "zz" ["e4"]) ∧
     (buildAIConfig next.2 defaultGeneralSettings 0 ["d4"]).userPrompt =
       some (enrichedPrompt "FEN-A" "PIECES-A" "zz" ["e4"])) := by
  refine ⟨by decide, ?_, rfl, rfl, rfl⟩
  show min (defaultPlayerSettings.temperature + 3/10) 1 = 1
  rw [show defaultPlayerSettings.temperature + 3/10 = (1 : ℚ) by
    norm_num [defaultPlayerSettings]]
  exact min_self 1

/-- C5 as amended: the context for the next attempt is a deterministic
function of the previous attempt's inputs, and accepting a move resets
the retry counter — but the enriched prompt override (and any escalated
temperature/token budget) is written into the persistent per-player
settings and survives acceptance, reappearing as the `userPrompt` of the
next ply's first-attempt configuration. -/
theorem retry_state_persists (N : Nat) (fen pieces move : String)
    (legal lm2 : List String) (ps : PlayerSettings) (g : GeneralSettings)
    (rc : Nat) (h : rc + 1 < N) :
    (handleInvalidMove N fen pieces legal rc ps move).ps.customPrompt =
      some (enrichedPrompt fen pieces move legal) ∧
    (acceptMove (handleInvalidMove N fen pieces legal rc ps move).retryCount
      (handleInvalidMove N fen pieces legal rc ps move).ps).1 = 0 ∧
    (acceptMove (handleInvalidMove N fen pieces legal rc ps move).retryCount
      (handleInvalidMove N fen pieces legal rc ps move).ps).2 =
      (handleInvalidMove N fen pieces legal rc ps move).ps ∧
    (buildAIConfig
      (acceptMove (handleInvalidMove N fen pieces legal rc ps move).retryCount
        (handleInvalidMove N fen pieces legal rc ps move).ps).2 g 0 lm2).userPrompt =
      some (enrichedPrompt fen pieces move legal) := by
  rw [handleInvalidMove_scheduled N fen pieces legal rc ps move h]
  exact ⟨rfl, rfl, rfl, rfl⟩

/-- C5 amended-claim witness at concrete inputs. -/
theorem retry_state_persists_witness :
    0 + 1 < 3 ∧
    (buildAIConfig
      (acceptMove (handleInvalidMove 3 "F" "P" ["e4"] 0 defaultPlayerSettings "zz").retryCount
        (handleInvalidMove 3 "F" "P" ["e4"] 0 defaultPlayerSettings "zz").ps).2
      defaultGeneralSettings 0 ["d4"]).userPrompt =
      some (enrichedPrompt "F" "P" "zz" ["e4"]) := by
  refine ⟨by omega, ?_⟩
  exact (retry_state_persists 3 "F" "P" "zz" ["e4"] ["d4"] defaultPlayerSettings
    defaultGeneralSettings 0 (by omega)).2.2.2

/-- C7 counterexample: after a failed attempt the enriched prompt
(carrying the legal moves and the piece inventory) is stored in the
configuration, but the Gemini request built for the retry attempt uses
the standard prompt and does not contain the legal-move list — the
enrichment never reaches the Gemini adapter. -/
theorem gemini_ignores_enrichment_counterexample :
    (let r := handleInvalidMove 3 "FEN-B" "White king at e1" ["e4", "d4"] 0
        defaultPlayerSettings "zz"
     let cfg := buildAIConfig r.ps defaultGeneralSettings r.retryCount ["e4", "d4"]
     cfg.userPrompt =
       some (enrichedPrompt "FEN-B" "White king at e1" "zz" ["e4", "d4"]) ∧
     occursIn ("Legal moves: e4, d4" : String).data
       (enrichedPrompt "FEN-B" "White king at e1" "zz" ["e4", "d4"]).data = true ∧
     (geminiRequest "FEN-B" ["c4"] cfg).userText = standardUserPrompt "FEN-B" ["c4"] ∧
     occursIn ("Legal moves" : String).data
       (geminiRequest "FEN-B" ["c4"] cfg).userText.data = false) := by
  exact ⟨rfl, by decide, rfl, by decide⟩

/-- C7 as amended: when a retry is scheduled, the enriched prompt —
embedding the joined legal-move list and the textual piece inventory
verbatim — becomes the user content of the next OpenAI request (both
the chat adapter and the o-series module); but the Gemini adapter
ignores the override and sends the standard prompt, and the xAI adapter
reads the never-populated `customPrompt` key and in any case aborts
every retry with the `cleanOptions` ReferenceError, pausing the game. -/
theorem enrichment_reaches_openai_only (N : Nat) (fen pieces move fen2 : String)
    (legal history lm2 : List String) (ps : PlayerSettings)
    (g : GeneralSettings) (rc : Nat) (h : rc + 1 < N) :
    (openaiRequest fen2 history
        (buildAIConfig (handleInvalidMove N fen pieces legal rc ps move).ps g
          (handleInvalidMove N fen pieces legal rc ps move).retryCount lm2)).userContent =
      enrichedPrompt fen pieces move legal ∧
    (oModelRequest fen2 history
        (buildAIConfig (handleInvalidMove N fen pieces legal rc ps move).ps g
          (handleInvalidMove N fen pieces legal rc ps move).retryCount lm2)).userContent =
      enrichedPrompt fen pieces move legal ∧
    occursIn (String.intercalate ", " legal).data
      (enrichedPrompt fen pieces move legal).data = true ∧
    occursIn pieces.data (enrichedPrompt fen pieces move legal).data = true ∧
    (geminiRequest fen2 history
        (buildAIConfig (handleInvalidMove N fen pieces legal rc ps move).ps g
          (handleInvalidMove N fen pieces legal rc ps move).retryCount lm2)).userText =
      standardUserPrompt fen2 history ∧
    (buildAIConfig (handleInvalidMove N fen pieces legal rc ps move).ps g
        (handleInvalidMove N fen pieces legal rc ps move).retryCount lm2).customPrompt = none ∧
    (xaiAttemptStatus fen2 history
        (buildAIConfig (handleInvalidMove N fen pieces legal rc ps move).ps g
          (handleInvalidMove N fen pieces legal rc ps move).retryCount lm2)).1 =
      GStatus.paused := by
  rw [handleInvalidMove_scheduled N fen pieces legal rc ps move h]
  have hbeq : (enrichedPrompt fen pieces move legal == "") = false := by
    rw [beq_eq_false_iff_ne]
    exact enrichedPrompt_ne_empty fen pieces move legal
  have huser : jsOrStr (some (enrichedPrompt fen pieces move legal))
      (standardUserPrompt fen2 history) = enrichedPrompt fen pieces move legal := by
    show (if (enrichedPrompt fen pieces move legal == "") = true
      then standardUserPrompt fen2 history
      else enrichedPrompt fen pieces move legal) = enrichedPrompt fen pieces move legal
    rw [hbeq]
    simp
  refine ⟨huser, huser, enrichedPrompt_contains_legal fen pieces move legal,
    enrichedPrompt_contains_pieces fen pieces move legal, rfl, rfl, ?_⟩
  exact congrArg Prod.fst (xaiRetryFails fen2 history _ (Nat.succ_pos rc)).2

/-- C7 amended-claim witness at concrete inputs. -/
theorem enrichment_reaches_openai_only_witness :
    0 + 1 < 3 ∧
    (openaiRequest "FEN-C" []
        (buildAIConfig (handleInvalidMove 3 "F" "P" ["e4"] 0 defaultPlayerSettings "zz").ps
          defaultGeneralSettings
          (handleInvalidMove 3 "F" "P" ["e4"] 0 defaultPlayerSettings "zz").retryCount
          ["e4"])).userContent = enrichedPrompt "F" "P" "zz" ["e4"] := by
  refine ⟨by omega, ?_⟩
  exact (enrichment_reaches_openai_only 3 "F" "P" "zz" "FEN-C" ["e4"] [] ["e4"]
    defaultPlayerSettings defaultGeneralSettings 0 (by omega)).1

/-- Helper: shape of `handleInvalidMove` when the retry bound is hit
(`maxRetries <= retryCount + 1`): the game pauses, the counter resets,
the settings are untouched and no retry is scheduled. -/
theorem handleInvalidMove_exhausted (N : Nat) (fen pieces : String)
    (legal : List String) (rc : Nat) (ps : PlayerSettings) (m : String)
    (h : N ≤ rc + 1) :
    handleInvalidMove N fen pieces legal rc ps m =
      { status := .paused, retryCount := 0, ps := ps, scheduledRetry := false } := by
  unfold handleInvalidMove
  rw [if_pos h]

/-- Helper: unfolding of `runPly` on a rejected outcome when a retry is
scheduled. -/
theorem runPly_rejected_scheduled (N : Nat) (fen pieces : String)
    (legal : List String) (rc : Nat) (ps : PlayerSettings) (m : String)
    (rest : List EvalOutcome)
    (h : (handleInvalidMove N fen pieces legal rc ps m).scheduledRetry = true) :
    runPly N fen pieces legal rc ps (.rejected m :: rest) =
      { requests := (runPly N fen pieces legal
          (handleInvalidMove N fen pieces legal rc ps m).retryCount
          (handleInvalidMove N fen pieces legal rc ps m).ps rest).requests + 1,
        status := (runPly N fen pieces legal
          (handleInvalidMove N fen pieces legal rc ps m).retryCount
          (handleInvalidMove N fen pieces legal rc ps m).ps rest).status,
        retryCount := (runPly N fen pieces legal
          (handleInvalidMove N fen pieces legal rc ps m).retryCount
          (handleInvalidMove N fen pieces legal rc ps m).ps rest).retryCount,
        ps := (runPly N fen pieces legal
          (handleInvalidMove N fen pieces legal rc ps m).retryCount
          (handleInvalidMove N fen pieces legal rc ps m).ps rest).ps,
        acceptedMove := (runPly N fen pieces legal
          (handleInvalidMove N fen pieces legal rc ps m).retryCount
          (handleInvalidMove N fen pieces legal rc ps m).ps rest).acceptedMove,
        attemptsSeen := (handleInvalidMove N fen pieces legal rc ps m).retryCount ::
          (runPly N fen pieces legal
            (handleInvalidMove N fen pieces legal rc ps m).retryCount
            (handleInvalidMove N fen pieces legal rc ps m).ps rest).attemptsSeen } := by
  simp only [runPly]
  rw [if_pos h]

/-- Helper: unfolding of `runPly` on a rejected outcome when the retry
bound is hit. -/
theorem runPly_rejected_exhausted (N : Nat) (fen pieces : String)
    (legal : List String) (rc : Nat) (ps : PlayerSettings) (m : String)
    (rest : List EvalOutcome)
    (h : (handleInvalidMove N fen pieces legal rc ps m).scheduledRetry = false) :
    runPly N fen pieces legal rc ps (.rejected m :: rest) =
      { requests := 1,
        status := (handleInvalidMove N fen pieces legal rc ps m).status,
        retryCount := (handleInvalidMove N fen pieces legal rc ps m).retryCount,
        ps := (handleInvalidMove N fen pieces legal rc ps m).ps,
        acceptedMove := none,
        attemptsSeen := [rc + 1] } := by
  simp only [runPly]
  rw [if_neg (by simp [h])]

/-- Helper: the per-ply retry loop, with the retry counter generalized.
Starting below the bound, the loop issues at most `N - rc` further
requests, every recorded attempt count stays at most `N`, a pause means
exactly `N - rc` further requests were issued with the ply unresolved,
and enough consecutive rejections force exactly that pause. -/
theorem runPly_aux (N : Nat) (fen pieces : String) (legal : List String) :
    ∀ (outs : List EvalOutcome) (rc : Nat) (ps : PlayerSettings), rc < N →
      (runPly N fen pieces legal rc ps outs).requests ≤ N - rc ∧
      (∀ a ∈ (runPly N fen pieces legal rc ps outs).attemptsSeen, a ≤ N) ∧
      ((runPly N fen pieces legal rc ps outs).status = GStatus.paused →
        (runPly N fen pieces legal rc ps outs).requests = N - rc ∧
        (runPly N fen pieces legal rc ps outs).acceptedMove = none) ∧
      ((∀ o ∈ outs, o.isRejected = true) → N - rc ≤ outs.length →
        (runPly N fen pieces legal rc ps outs).status = GStatus.paused ∧
        (runPly N fen pieces legal rc ps outs).requests = N - rc) := by
  intro outs
  induction outs with
  | nil =>
    intro rc ps hrc
    refine ⟨by simp [runPly], by simp [runPly], by simp [runPly], ?_⟩
    intro _ hlen
    simp only [List.length_nil] at hlen
    omega
  | cons o rest ih =>
    intro rc ps hrc
    cases o with
    | accepted m =>
      refine ⟨?_, ?_, ?_, ?_⟩
      · show 1 ≤ N - rc
        omega
      · intro a ha
        simp [runPly] at ha
      · intro hp
        simp [runPly] at hp
      · intro hall _
        have := hall (.accepted m) (List.mem_cons_self _ _)
        simp [EvalOutcome.isRejected] at this
    | rejected m =>
      by_cases hn : N ≤ rc + 1
      · have hexh := handleInvalidMove_exhausted N fen pieces legal rc ps m hn
        rw [runPly_rejected_exhausted N fen pieces legal rc ps m rest (by rw [hexh])]
        refine ⟨by simp; omega, ?_, ?_, ?_⟩
        · intro a ha
          simp at ha
          omega
        · intro _
          refine ⟨by simp; omega, rfl⟩
        · intro _ _
          refine ⟨by rw [hexh], by simp; omega⟩
      · have hsch := handleInvalidMove_scheduled N fen pieces legal rc ps m (by omega)
        have hrc2 : (handleInvalidMove N fen pieces legal rc ps m).retryCount = rc + 1 := by
          rw [hsch]
        rw [runPly_rejected_scheduled N fen pieces legal rc ps m rest (by rw [hsch])]
        have H := ih (handleInvalidMove N fen pieces legal rc ps m).retryCount
          (handleInvalidMove N fen pieces legal rc ps m).ps (by omega)
        rw [hrc2] at H
        refine ⟨?_, ?_, ?_, ?_⟩
        · have := H.1
          simp only [hrc2]
          omega
        · intro a ha
          simp only [hrc2] at ha
          simp at ha
          rcases ha with ha | ha
          · omega
          · exact H.2.1 a ha
        · intro hp
          simp only [hrc2] at hp ⊢
          have hres := H.2.2.1 hp
          refine ⟨by omega, hres.2⟩
        · intro hall hlen
          have hall2 : ∀ o ∈ rest, o.isRejected = true :=
            fun o ho => hall o (List.mem_cons_of_mem _ ho)
          have hlen2 : N - (rc + 1) ≤ rest.length := by
            simp only [List.length_cons] at hlen
            omega
          have hres := H.2.2.2 hall2 hlen2
          simp only [hrc2]
          refine ⟨hres.1, by omega⟩

/-- C1.  For `maxRetries = N >= 1` and a fresh ply (retry counter 0),
the loop issues at most `N` AI requests; the attempt counter recorded
after each failed evaluation never exceeds `N`; the game is paused only
after exactly `N` requests with the ply unresolved (no move forced);
and `N` consecutive failed evaluations pause the game after exactly `N`
requests — the abandonment happens exactly on the `N`-th failure. -/
theorem retry_bound (N : Nat) (fen pieces : String) (legal : List String)
    (ps : PlayerSettings) (outs : List EvalOutcome) (hN : 1 ≤ N) :
    (runPly N fen pieces legal 0 ps outs).requests ≤ N ∧
    (∀ a ∈ (runPly N fen pieces legal 0 ps outs).attemptsSeen, a ≤ N) ∧
    ((runPly N fen pieces legal 0 ps outs).status = GStatus.paused →
      (runPly N fen pieces legal 0 ps outs).requests = N ∧
      (runPly N fen pieces legal 0 ps outs).acceptedMove = none) ∧
    ((∀ o ∈ outs, o.isRejected = true) → N ≤ outs.length →
      (runPly N fen pieces legal 0 ps outs).status = GStatus.paused ∧
      (runPly N fen pieces legal 0 ps outs).requests = N) := by
  have h := runPly_aux N fen pieces legal outs 0 ps (by omega)
  simpa using h

/-- C1 witness: with the default bound `maxRetries = 3`, three
consecutive rejected evaluations issue exactly 3 requests and pause the
game with the ply unresolved. -/
theorem retry_bound_witness :
    (1 ≤ 3) ∧
    (runPly 3 "F" "P" ["e4"] 0 defaultPlayerSettings
      [.rejected "x", .rejected "y", .rejected "z"]).requests = 3 ∧
    (runPly 3 "F" "P" ["e4"] 0 defaultPlayerSettings
      [.rejected "x", .rejected "y", .rejected "z"]).status = GStatus.paused ∧
    (runPly 3 "F" "P" ["e4"] 0 defaultPlayerSettings
      [.rejected "x", .rejected "y", .rejected "z"]).acceptedMove = none := by
  have h := retry_bound 3 "F" "P" ["e4"] defaultPlayerSettings
    [.rejected "x", .rejected "y", .rejected "z"] (by omega)
  have hp := h.2.2.2 (by decide) (by decide)
  exact ⟨by omega, hp.2, hp.1, (h.2.2.1 hp.1).2⟩

/-- Helper: every character list is a prefix of itself. -/
theorem startsWithL_self (l : List Char) : startsWithL l l = true := by
  induction l with
  | nil => rfl
  | cons c cs ih => simp [startsWithL, ih]

/-- Helper: extending the haystack on the right preserves prefixes. -/
theorem startsWithL_mono : ∀ (n l m : List Char),
    startsWithL l n = true → startsWithL (l ++ m) n = true := by
  intro n
  induction n with
  | nil =>
    intro l m _
    cases l ++ m <;> rfl
  | cons d ds ih =>
    intro l m h
    cases l with
    | nil => simp [startsWithL] at h
    | cons c cs =>
      simp only [startsWithL, Bool.and_eq_true] at h
      simp only [List.cons_append, startsWithL, Bool.and_eq_true]
      exact ⟨h.1, ih cs m h.2⟩

/-- Helper: prefix order is transitive. -/
theorem startsWithL_trans : ∀ (a b c : List Char),
    startsWithL b a = true → startsWithL c b = true → startsWithL c a = true := by
  intro a
  induction a with
  | nil =>
    intro b c _ _
    cases c <;> rfl
  | cons d ds ih =>
    intro b c h1 h2
    cases b with
    | nil => simp [startsWithL] at h1
    | cons cb csb =>
      cases c with
      | nil => simp [startsWithL] at h2
      | cons cc csc =>
        simp only [startsWithL, Bool.and_eq_true] at h1 h2 ⊢
        refine ⟨?_, ih csb csc h1.2 h2.2⟩
        rw [beq_iff_eq] at h1 h2 ⊢
        rw [h2.1, h1.1]

/-- Helper: appending an element that extends every member keeps the
prefix chain intact. -/
theorem prefixChainOk_append : ∀ (l : List String) (x : String),
    prefixChainOk l = true →
    (∀ a ∈ l, startsWithL x.data a.data = true) →
    prefixChainOk (l ++ [x]) = true := by
  intro l
  induction l with
  | nil =>
    intro x _ _
    rfl
  | cons a l2 ih =>
    intro x hc hl
    cases l2 with
    | nil =>
      simp only [List.cons_append, List.nil_append, prefixChainOk, Bool.and_eq_true]
      exact ⟨hl a (by simp), trivial⟩
    | cons b l3 =>
      simp only [prefixChainOk, Bool.and_eq_true] at hc
      simp only [List.cons_append, prefixChainOk, Bool.and_eq_true]
      refine ⟨hc.1, ?_⟩
      have := ih x hc.2 (fun y hy => hl y (List.mem_cons_of_mem _ hy))
      simpa using this

/-- Helper: pushing one `onUpdate` record whose content `fc2` extends
the previous accumulated content `fc` preserves the three streaming
invariants: the contents form a prefix chain, every content is a prefix
of the accumulator, and the last content equals the accumulator. -/
theorem streamInv_push (fc2 : String) (r : Option String) (fc : String)
    (ups : List StreamUpdate)
    (hpre : startsWithL fc2.data fc.data = true)
    (h1 : prefixChainOk (ups.map StreamUpdate.content) = true)
    (h2 : ∀ u ∈ ups, startsWithL fc.data u.content.data = true) :
    prefixChainOk ((ups ++ [StreamUpdate.mk fc2 r]).map StreamUpdate.content) = true ∧
    (∀ u ∈ ups ++ [StreamUpdate.mk fc2 r], startsWithL fc2.data u.content.data = true) ∧
    (((ups ++ [StreamUpdate.mk fc2 r]).getLast?).map StreamUpdate.content).getD fc2 = fc2 := by
  refine ⟨?_, ?_, ?_⟩
  · rw [List.map_append]
    exact prefixChainOk_append (ups.map StreamUpdate.content) fc2 h1 (by
      intro a ha
      rcases List.mem_map.mp ha with ⟨u, hu, hua⟩
      rw [← hua]
      exact startsWithL_trans u.content.data fc.data fc2.data (h2 u hu) hpre)
  · intro u hu
    rcases List.mem_append.mp hu with hu | hu
    · exact startsWithL_trans u.content.data fc.data fc2.data (h2 u hu) hpre
    · rcases List.mem_singleton.mp hu with rfl
      exact startsWithL_self fc2.data
  · rw [List.getLast?_concat]
    rfl

/-- Helper: one step of the `streamGrokResponse` read loop preserves the
three streaming invariants. -/
theorem streamStep_inv (isMini : Bool) (d : StreamDelta) (fc fr : String)
    (ups : List StreamUpdate)
    (h1 : prefixChainOk (ups.map StreamUpdate.content) = true)
    (h2 : ∀ u ∈ ups, startsWithL fc.data u.content.data = true)
    (h3 : ((ups.getLast?).map StreamUpdate.content).getD fc = fc) :
    prefixChainOk (((streamStep isMini (fc, fr, ups) d).2.2).map StreamUpdate.content) = true ∧
    (∀ u ∈ (streamStep isMini (fc, fr, ups) d).2.2,
      startsWithL (streamStep isMini (fc, fr, ups) d).1.data u.content.data = true) ∧
    (((streamStep isMini (fc, fr, ups) d).2.2.getLast?).map StreamUpdate.content).getD
      (streamStep isMini (fc, fr, ups) d).1 = (streamStep isMini (fc, fr, ups) d).1 := by
  rcases d with ⟨dc, dr⟩
  cases dc with
  | none =>
    cases isMini with
    | false => exact ⟨h1, h2, h3⟩
    | true =>
      cases dr with
      | none => exact ⟨h1, h2, h3⟩
      | some rr =>
        by_cases hr : (rr == "") = true
        · simp only [streamStep, hr]
          simp only [if_true]
          exact ⟨h1, h2, h3⟩
        · have hrf : (rr == "") = false := by
            cases hx : (rr == "") with
            | true => exact absurd hx hr
            | false => rfl
          simp only [streamStep, hrf]
          simp only [Bool.false_eq_true, if_false]
          exact streamInv_push fc (some (fr ++ rr)) fc ups
            (startsWithL_self fc.data) h1 h2
  | some c =>
    by_cases hce : (c == "") = true
    · cases isMini with
      | false =>
        simp only [streamStep, hce, if_true]
        exact ⟨h1, h2, h3⟩
      | true =>
        cases dr with
        | none =>
          simp only [streamStep, hce, if_true]
          exact ⟨h1, h2, h3⟩
        | some rr =>
          by_cases hr : (rr == "") = true
          · simp only [streamStep, hce, hr, if_true]
            exact ⟨h1, h2, h3⟩
          · have hrf : (rr == "") = false := by
              cases hx : (rr == "") with
              | true => exact absurd hx hr
              | false => rfl
            simp only [streamStep, hce, hrf, if_true, Bool.false_eq_true, if_false]
            exact streamInv_push fc (some (fr ++ rr)) fc ups
              (startsWithL_self fc.data) h1 h2
    · have hcf : (c == "") = false := by
        cases hx : (c == "") with
        | true => exact absurd hx hce
        | false => rfl
      have hpre : startsWithL (fc ++ c).data fc.data = true := by
        rw [String.data_append]
        exact startsWithL_append fc.data c.data
      have hstep1 := streamInv_push (fc ++ c) none fc ups hpre h1 h2
      cases isMini with
      | false =>
        simp only [streamStep, hcf, Bool.false_eq_true, if_false]
        exact hstep1
      | true =>
        cases dr with
        | none =>
          simp only [streamStep, hcf, Bool.false_eq_true, if_false]
          exact hstep1
        | some rr =>
          by_cases hr : (rr == "") = true
          · simp only [streamStep, hcf, hr, if_true, Bool.false_eq_true, if_false]
            exact hstep1
          · have hrf : (rr == "") = false := by
              cases hx : (rr == "") with
              | true => exact absurd hx hr
              | false => rfl
            simp only [streamStep, hcf, hrf, Bool.false_eq_true, if_false]
            have hstep2 := streamInv_push (fc ++ c) (some (fr ++ rr)) (fc ++ c)
              (ups ++ [StreamUpdate.mk (fc ++ c) none]) (startsWithL_self (fc ++ c).data)
              hstep1.1 hstep1.2.1
            exact hstep2

/-- Helper: the streaming invariants hold of the whole accumulated read
loop, by induction over the delta list. -/
theorem streamAccum_inv (isMini : Bool) (ds : List StreamDelta) :
    prefixChainOk (((streamGrokAccum isMini ds).2.2).map StreamUpdate.content) = true ∧
    (∀ u ∈ (streamGrokAccum isMini ds).2.2,
      startsWithL (streamGrokAccum isMini ds).1.data u.content.data = true) ∧
    (((streamGrokAccum isMini ds).2.2.getLast?).map StreamUpdate.content).getD
      (streamGrokAccum isMini ds).1 = (streamGrokAccum isMini ds).1 := by
  have main : ∀ (l : List StreamDelta) (acc : String × String × List StreamUpdate),
      prefixChainOk (acc.2.2.map StreamUpdate.content) = true →
      (∀ u ∈ acc.2.2, startsWithL acc.1.data u.content.data = true) →
      ((acc.2.2.getLast?).map StreamUpdate.content).getD acc.1 = acc.1 →
      prefixChainOk ((l.foldl (streamStep isMini) acc).2.2.map StreamUpdate.content) = true ∧
      (∀ u ∈ (l.foldl (streamStep isMini) acc).2.2,
        startsWithL (l.foldl (streamStep isMini) acc).1.data u.content.data = true) ∧
      (((l.foldl (streamStep isMini) acc).2.2.getLast?).map StreamUpdate.content).getD
        (l.foldl (streamStep isMini) acc).1 = (l.foldl (streamStep isMini) acc).1 := by
    intro l
    induction l with
    | nil =>
      intro acc ha1 ha2 ha3
      exact ⟨ha1, ha2, ha3⟩
    | cons d l2 ih =>
      intro acc ha1 ha2 ha3
      have hstep := streamStep_inv isMini d acc.1 acc.2.1 acc.2.2 ha1 ha2 ha3
      simp only [List.foldl_cons]
      exact ih (streamStep isMini acc d) hstep.1 hstep.2.1 hstep.2.2
  exact main ds ("", "", []) (by rfl) (by intro u hu; simp at hu) (by rfl)

/-- C6 counterexample: a streamed chess-context resolution receiving
the deltas `"I "`, `"choose "`, `"e4"` delivers the cumulative updates
`"I "`, `"I choose "`, `"I choose e4"`, but the resolution returns the
extracted move `"e4"`, which differs from the last incremental update's
text — the returned text is `extractValidChessMove` applied to the
accumulated text, not the accumulated text itself. -/
theorem streaming_final_text_counterexample :
    ((streamGrokAccum false
        [⟨some "I ", none⟩, ⟨some "choose ", none⟩, ⟨some "e4", none⟩]).2.2).map
      StreamUpdate.content = ["I ", "I choose ", "I choose e4"] ∧
    streamGrokResult true false
      [⟨some "I ", none⟩, ⟨some "choose ", none⟩, ⟨some "e4", none⟩] = "e4" ∧
    ("e4" : String) ≠ "I choose e4" := by
  refine ⟨by decide, by decide, by decide⟩

/-- C6 as amended: during a streaming resolution every incremental
update carries the cumulative text so far, so the update texts form a
prefix-extension chain and the last update's text equals the final
accumulated text; the resolution returns that accumulated text verbatim
only outside chess contexts — in a chess context it returns the move
extracted from the accumulated text, which may differ from the last
update's text. -/
theorem streaming_updates (isMini : Bool) (ds : List StreamDelta) :
    prefixChainOk (((streamGrokAccum isMini ds).2.2).map StreamUpdate.content) = true ∧
    (((streamGrokAccum isMini ds).2.2.getLast?).map StreamUpdate.content).getD
      (streamGrokAccum isMini ds).1 = (streamGrokAccum isMini ds).1 ∧
    streamGrokResult false isMini ds = (streamGrokAccum isMini ds).1 ∧
    streamGrokResult true isMini ds =
      extractValidChessMove (streamGrokAccum isMini ds).1
        (if isMini then (streamGrokAccum isMini ds).2.1 else "") none := by
  obtain ⟨ha, _, hc⟩ := streamAccum_inv isMini ds
  refine ⟨ha, hc, ?_, ?_⟩
  · cases isMini <;> simp [streamGrokResult]
  · cases isMini <;> simp [streamGrokResult]

end ChessAI
